import Mathlib

/-!
Shallow embedding of the `library` module of the `gir` binding generator
(`src/library.rs`): the namespace-scoped type interning tables, cross-namespace
name resolution, container synthesis and representation derivation.

Modelling conventions:
* Rust `u16` / `u32` identifiers are modelled as `Nat`; identifier truncation at
  2^16 / 2^32 is outside the modelled range (no reachable library approaches it).
* `HashMap<String, _>` is modelled as an association list `List (String × _)`
  with `mapGet` lookup; the code only inserts a key when it is absent, so
  appending the new binding is observationally the map insert.
* A Rust panic (out-of-range index, `assert!`, `unwrap`, explicit abort) is
  modelled as `none` / a default value at the points noted on each definition;
  all theorems stay inside the panic-free region via their hypotheses.
* `Type::as_arg` recurses through the library table, so the Lean model takes a
  fuel argument; exhausted fuel returns `none`, exactly like the non-termination
  of the Rust original on a cyclic alias chain.
-/

namespace Gir

/-- Lookup in an association list keyed by strings; models `HashMap::get`. -/
def mapGet {α : Type} (key : String) : List (String × α) → Option α
  | [] => none
  | p :: ps => if p.1 = key then some p.2 else mapGet key ps

/-- Ownership-transfer mode (`enum Transfer`). -/
inductive Transfer
  | None
  | Container
  | Full
deriving DecidableEq

/-- `Transfer::by_name`. -/
def Transfer.by_name (name : String) : Option Transfer :=
  match name with
  | "none" => some Transfer.None
  | "container" => some Transfer.Container
  | "full" => some Transfer.Full
  | _ => Option.none

/-- Primitive-type kinds (`enum Fundamental`).  The Rust constructor `Type`
is a reserved word in Lean, so it is rendered `Type_`. -/
inductive Fundamental
  | None
  | Boolean
  | Int8
  | UInt8
  | Int16
  | UInt16
  | Int32
  | UInt32
  | Int64
  | UInt64
  | Char
  | UChar
  | Int
  | UInt
  | Long
  | ULong
  | Size
  | SSize
  | Float
  | Double
  | Pointer
  | VarArgs
  | UniChar
  | Utf8
  | Filename
  | Type_
  | Unsupported
deriving DecidableEq

/-- The fixed fundamental catalog (`const FUNDAMENTAL`), in source order. -/
def FUNDAMENTAL : List (String × Fundamental) :=
  [("none", Fundamental.None),
   ("gboolean", Fundamental.Boolean),
   ("gint8", Fundamental.Int8),
   ("guint8", Fundamental.UInt8),
   ("gint16", Fundamental.Int16),
   ("guint16", Fundamental.UInt16),
   ("gint32", Fundamental.Int32),
   ("guint32", Fundamental.UInt32),
   ("gint64", Fundamental.Int64),
   ("guint64", Fundamental.UInt64),
   ("gchar", Fundamental.Char),
   ("guchar", Fundamental.UChar),
   ("gint", Fundamental.Int),
   ("guint", Fundamental.UInt),
   ("glong", Fundamental.Long),
   ("gulong", Fundamental.ULong),
   ("gsize", Fundamental.Size),
   ("gssize", Fundamental.SSize),
   ("gfloat", Fundamental.Float),
   ("gdouble", Fundamental.Double),
   ("long double", Fundamental.Unsupported),
   ("gunichar", Fundamental.UniChar),
   ("gpointer", Fundamental.Pointer),
   ("va_list", Fundamental.Unsupported),
   ("varargs", Fundamental.VarArgs),
   ("utf8", Fundamental.Utf8),
   ("filename", Fundamental.Filename),
   ("GType", Fundamental.Type_)]

/-- `struct TypeId`: (namespace id, local id), a pure identity value. -/
structure TypeId where
  ns_id : Nat
  id : Nat
deriving DecidableEq

/-- `struct Alias`. -/
structure Alias where
  name : String
  c_identifier : String
  typ : TypeId
deriving DecidableEq

/-- `struct Constant`. -/
structure Constant where
  name : String
  typ : TypeId
  value : String
deriving DecidableEq

/-- `struct Member`. -/
structure Member where
  name : String
  c_identifier : String
  value : String
deriving DecidableEq

/-- `struct Parameter`. -/
structure Parameter where
  name : String
  typ : TypeId
  transfer : Transfer
deriving DecidableEq

/-- `struct Function`. -/
structure Function where
  name : String
  c_identifier : String
  parameters : List Parameter
  ret : Parameter
deriving DecidableEq

/-- `struct Enumeration`. -/
structure Enumeration where
  name : String
  members : List Member
  functions : List Function
deriving DecidableEq

/-- `struct Bitfield`. -/
structure Bitfield where
  name : String
  members : List Member
  functions : List Function
deriving DecidableEq

/-- `struct Record`. -/
structure Record where
  name : String
  functions : List Function
deriving DecidableEq

/-- `struct Field`. -/
structure Field where
  name : String
  typ : TypeId
deriving DecidableEq

/-- `struct Union`. -/
structure Union where
  name : String
  fields : List Field
  functions : List Function
deriving DecidableEq

/-- `struct Interface`. -/
structure Interface where
  name : String
  functions : List Function
deriving DecidableEq

/-- `struct Class`. -/
structure Class where
  name : String
  functions : List Function
deriving DecidableEq

/-- The closed sum of type shapes (`enum Type`; `Type` is reserved in Lean,
so the Lean name is `Typ`). -/
inductive Typ
  | Fundamental : Fundamental → Typ
  | Alias : Alias → Typ
  | Enumeration : Enumeration → Typ
  | Bitfield : Bitfield → Typ
  | Record : Record → Typ
  | Union : Union → Typ
  | Callback : Function → Typ
  | Interface : Interface → Typ
  | Class : Class → Typ
  | Array : TypeId → Typ
  | HashTable : TypeId → TypeId → Typ
  | List : TypeId → Typ
  | SList : TypeId → Typ
deriving DecidableEq

/-- The `Debug` rendering of a `TypeId` used by the container key
`format!` strings: `TypeId \x7b ns_id: A, id: B \x7d`. -/
def TypeId.debug (t : TypeId) : String :=
  "TypeId \x7b ns_id: " ++ Nat.repr t.ns_id ++ ", id: " ++ Nat.repr t.id ++ " \x7d"

/-- `struct Namespace`. -/
structure Namespace where
  name : String
  types : List (Option Typ)
  index : List (String × Nat)
  constants : List Constant
  functions : List Function
deriving DecidableEq

/-- `Namespace::new`. -/
def Namespace.new : Namespace :=
  { name := "", types := [], index := [], constants := [], functions := [] }

/-- `Namespace::type_by_id` (`self.types[id].as_ref()`; the out-of-range
panic is modelled as `none`). -/
def Namespace.type_by_id (ns : Namespace) (id : Nat) : Option Typ :=
  match ns.types[id]? with
  | some o => o
  | none => none

/-- `Namespace::find_type`. -/
def Namespace.find_type (ns : Namespace) (name : String) : Option Nat :=
  mapGet name ns.index

/-- `Namespace::get_type`: idempotent get-or-create of the slot for `name`. -/
def Namespace.get_type (ns : Namespace) (name : String) : Nat × Namespace :=
  match mapGet name ns.index with
  | some id => (id, ns)
  | none =>
    let id := ns.types.length
    (id, { ns with types := ns.types ++ [none], index := ns.index ++ [(name, id)] })

/-- `Namespace::add_type`: get-or-create, then overwrite the slot. -/
def Namespace.add_type (ns : Namespace) (name : String) (typ : Typ) : Nat × Namespace :=
  let r := ns.get_type name
  (r.1, { r.2 with types := r.2.types.set r.1 (some typ) })

/-- `Namespace::unresolved`: names of still-empty slots (the Rust direct
index cannot be out of range on reachable states; modelled via `getD`). -/
def Namespace.unresolved (ns : Namespace) : List String :=
  ns.index.filterMap fun p => if (ns.types.getD p.2 none).isNone then some p.1 else none

/-- `INTERNAL_NAMESPACE_NAME`. -/
def INTERNAL_NAMESPACE_NAME : String := "*"

/-- `INTERNAL_NAMESPACE`. -/
def INTERNAL_NAMESPACE : Nat := 0

/-- `struct Library`. -/
structure Library where
  namespaces : List Namespace
  index : List (String × Nat)
deriving DecidableEq

/-- `Library::namespace` / `namespace_mut` target (`namespace` is reserved in
Lean): out-of-range access, a Rust panic, is modelled by the default. -/
def Library.namespace' (lib : Library) (ns_id : Nat) : Namespace :=
  lib.namespaces.getD ns_id Namespace.new

/-- `Library::has_namespace`. -/
def Library.has_namespace (lib : Library) (name : String) : Bool :=
  (mapGet name lib.index).isSome

/-- `Library::get_namespace`: lazily creates an (unnamed) namespace on first
mention. -/
def Library.get_namespace (lib : Library) (name : String) : Nat × Library :=
  match mapGet name lib.index with
  | some id => (id, lib)
  | none =>
    let id := lib.namespaces.length
    (id, { lib with namespaces := lib.namespaces ++ [Namespace.new],
                    index := lib.index ++ [(name, id)] })

/-- `Library::add_type`. -/
def Library.add_type (lib : Library) (ns_id : Nat) (name : String) (typ : Typ) :
    TypeId × Library :=
  let r := (lib.namespace' ns_id).add_type name typ
  (⟨ns_id, r.1⟩, { lib with namespaces := lib.namespaces.set ns_id r.2 })

/-- Splitting on the character separator, accumulator version;
models Rust `str::split` with separator a single character. -/
def splitDotAux : List Char → List Char → List String
  | [], acc => [String.mk acc.reverse]
  | c :: cs, acc =>
    if c = '.' then String.mk acc.reverse :: splitDotAux cs [] else splitDotAux cs (c :: acc)

/-- All pieces of `s` between occurrences of a dot (Rust `name.split('.')`,
collected in order). -/
def splitDot (s : String) : List String := splitDotAux s.data []

/-- `Library::get_type`: cross-namespace resolution.  The Rust
`assert!(ns.is_none() || parts.next().is_none())` panic on a multiply-qualified
name is modelled as `none`. -/
def Library.get_type (lib : Library) (current_ns_id : Nat) (name : String) :
    Option (TypeId × Library) :=
  match splitDot name with
  | [n] =>
    match (lib.namespace' INTERNAL_NAMESPACE).find_type n with
    | some id => some (⟨INTERNAL_NAMESPACE, id⟩, lib)
    | none =>
      let r := (lib.namespace' current_ns_id).get_type n
      some (⟨current_ns_id, r.1⟩,
            { lib with namespaces := lib.namespaces.set current_ns_id r.2 })
  | [ns, n] =>
    let r1 := lib.get_namespace ns
    let r := (r1.2.namespace' r1.1).get_type n
    some (⟨r1.1, r.1⟩, { r1.2 with namespaces := r1.2.namespaces.set r1.1 r.2 })
  | _ => none

/-- `Library::new`: reserve the internal namespace `*` (identifier 0), name
it, and seed every fundamental into it. -/
def Library.new : Library :=
  let lib0 : Library := { namespaces := [], index := [] }
  let lib1 := (lib0.get_namespace INTERNAL_NAMESPACE_NAME).2
  let lib2 := { lib1 with
    namespaces := lib1.namespaces.set INTERNAL_NAMESPACE
      { lib1.namespace' INTERNAL_NAMESPACE with name := INTERNAL_NAMESPACE_NAME } }
  FUNDAMENTAL.foldl
    (fun lib p => (lib.add_type INTERNAL_NAMESPACE p.1 (Typ.Fundamental p.2)).2) lib2

/-- `Library::type_by_id` (direct namespace index; out-of-range, a Rust
panic, is modelled as `none`). -/
def Library.type_by_id (lib : Library) (tid : TypeId) : Option Typ :=
  match lib.namespaces[tid.ns_id]? with
  | some ns => ns.type_by_id tid.id
  | none => none

/-- The list built inside `Library::check_resolved` (its `let list`):
qualified names of every empty named slot, following the library index. -/
def Library.unresolved_list (lib : Library) : List String :=
  lib.index.flatMap fun p =>
    ((lib.namespace' p.2).unresolved).map fun s => p.1 ++ "." ++ s

/-- `Library::check_resolved`: the abort (`Incomplete library` panic
carrying the full list) is modelled as `Except.error`. -/
def Library.check_resolved (lib : Library) : Except (List String) Unit :=
  if lib.unresolved_list.isEmpty then Except.ok () else Except.error lib.unresolved_list

/-- Element lists fed to container synthesis (spelled out so that inside the
`Typ` namespace the name `List` is not captured by the constructor `Typ.List`). -/
abbrev TypeIdList := List TypeId

/-- `Type::container`: synthesize a composite type under its canonical
`format!` key in the internal namespace; unsupported kind/arity yields
`None` before any mutation. -/
def Typ.container (library : Library) (name : String) (inner : TypeIdList) :
    Option (TypeId × Library) :=
  ((match name, inner with
   | "array", [tid] =>
     some ("array(#" ++ tid.debug ++ ")", Typ.Array tid)
   | "GLib.HashTable", [k_tid, v_tid] =>
     some ("HashTable(#" ++ k_tid.debug ++ ", #" ++ v_tid.debug ++ ")",
           Typ.HashTable k_tid v_tid)
   | "GLib.List", [tid] =>
     some ("List(#" ++ tid.debug ++ ")", Typ.List tid)
   | "GLib.SList", [tid] =>
     some ("SList(#" ++ tid.debug ++ ")", Typ.SList tid)
   | _, _ => none) : Option (String × Typ)
  ).map fun r => library.add_type INTERNAL_NAMESPACE r.1 r.2

/-- `impl AsArg for Fundamental`: the fixed external spelling; the
`Unsupported` abort is modelled as `none`. -/
def Fundamental.as_arg (f : Fundamental) (_library : Library) : Option String :=
  match f with
  | Fundamental.Boolean => some ("gboolean")
  | Fundamental.Int8 => some ("gint8")
  | Fundamental.UInt8 => some ("guint8")
  | Fundamental.Int16 => some ("gint16")
  | Fundamental.UInt16 => some ("guint16")
  | Fundamental.Int32 => some ("gint32")
  | Fundamental.UInt32 => some ("guint32")
  | Fundamental.Int64 => some ("gint64")
  | Fundamental.UInt64 => some ("guint64")
  | Fundamental.Char => some ("gchar")
  | Fundamental.UChar => some ("guchar")
  | Fundamental.Int => some ("gint")
  | Fundamental.UInt => some ("guint")
  | Fundamental.Long => some ("glong")
  | Fundamental.ULong => some ("gulong")
  | Fundamental.Size => some ("gsize")
  | Fundamental.SSize => some ("gssize")
  | Fundamental.Float => some ("gfloat")
  | Fundamental.Double => some ("gdouble")
  | Fundamental.UniChar => some ("gunichar")
  | Fundamental.Pointer => some ("gpointer")
  | Fundamental.VarArgs => some ("...")
  | Fundamental.Utf8 => some ("*const c_char")
  | Fundamental.Filename => some ("*const c_char")
  | Fundamental.Type_ => some ("GType")
  | Fundamental.None => some ("c_void")
  | Fundamental.Unsupported => none

/-- `impl AsArg for Type`: representation derivation.  The recursion through
the library table takes fuel; a failed `unwrap` of `type_by_id` (a Rust panic)
propagates as `none`. -/
def Typ.as_arg : Nat → Library → Typ → Option String
  | 0, _, _ => none
  | fuel + 1, library, t =>
    match t with
    | Typ.Fundamental x => x.as_arg library
    | Typ.Alias x => (library.type_by_id x.typ).bind fun t2 => Typ.as_arg fuel library t2
    | Typ.Enumeration x => some x.name
    | Typ.Bitfield x => some x.name
    | Typ.Record x => some ("*mut " ++ x.name)
    | Typ.Union x => some ("*mut " ++ x.name)
    | Typ.Callback _ => some ("TODO")
    | Typ.Interface x => some ("*mut " ++ x.name)
    | Typ.Class x => some ("*mut " ++ x.name)
    | Typ.Array x =>
      (library.type_by_id x).bind fun t2 =>
        (Typ.as_arg fuel library t2).map fun s => "*mut " ++ s
    | Typ.HashTable _ _ => some ("*mut GHashTable")
    | Typ.List _ => some ("*mut GList")
    | Typ.SList _ => some ("*mut GSList")

/-- Every namespace other than the reserved internal one carries the blank
name `""`: the name-to-identifier association lives only in the library
index.  (`Library::new` names only the internal namespace.) -/
def NsNamesBlank (lib : Library) : Prop :=
  ∀ j ns, lib.namespaces[j]? = some ns → j ≠ INTERNAL_NAMESPACE → ns.name = ""

/-- Decimal digit expansion of a natural number, most significant first
(the list produced by the standard library's `Nat.toDigits 10`, in a
structurally recursive form convenient for proofs). -/
def natDigits (n : Nat) : List Char :=
  if n < 10 then [Nat.digitChar n]
  else natDigits (n / 10) ++ [Nat.digitChar (n % 10)]
decreasing_by exact Nat.div_lt_self (by omega) (by omega)

/-- Numeric value of a decimal digit string (left fold). -/
def digitsVal (l : List Char) : Nat :=
  l.foldl (fun a c => 10 * a + (c.toNat - 48)) 0

/-! ### Helper lemmas on association lists and list updates -/

theorem mapGet_append {α : Type} (key : String) (l1 l2 : List (String × α)) :
    mapGet key (l1 ++ l2) =
      (match mapGet key l1 with
       | some v => some v
       | none => mapGet key l2) := by
  induction l1 with
  | nil => simp [mapGet]
  | cons p ps ih =>
    by_cases h : p.1 = key <;> simp [mapGet, h, ih]

theorem mapGet_mem {α : Type} {key : String} {l : List (String × α)} {v : α}
    (h : mapGet key l = some v) : (key, v) ∈ l := by
  induction l with
  | nil => simp [mapGet] at h
  | cons p ps ih =>
    by_cases hp : p.1 = key
    · simp [mapGet, hp] at h
      subst hp
      subst h
      exact List.mem_cons_self _ _
    · simp [mapGet, hp] at h
      exact List.mem_cons_of_mem _ (ih h)

theorem getD_set_eq {α : Type} {l : List α} {i : Nat} {a d : α} (h : i < l.length) :
    (l.set i a).getD i d = a := by
  simp [List.getD_eq_getElem?_getD, List.getElem?_set_self h]

theorem getD_set_ne {α : Type} {l : List α} {i j : Nat} {a d : α} (h : i ≠ j) :
    (l.set i a).getD j d = l.getD j d := by
  simp [List.getD_eq_getElem?_getD, List.getElem?_set_ne h]

theorem getD_append_length {α : Type} (l : List α) (a d : α) :
    (l ++ [a]).getD l.length d = a := by
  simp [List.getD_eq_getElem?_getD, List.getElem?_concat_length]

/-! ### Facts about namespace interning -/

/-- After `get_type`, the returned identifier is the looked-up binding. -/
theorem Namespace.get_type_lookup (ns : Namespace) (name : String) :
    mapGet name (ns.get_type name).2.index = some (ns.get_type name).1 := by
  unfold Namespace.get_type
  cases h : mapGet name ns.index with
  | some id => simp [h]
  | none => simp [h, mapGet_append, mapGet]

/-- A second `get_type` for the same name returns the same identifier and
leaves the namespace unchanged. -/
theorem Namespace.get_type_idem (ns : Namespace) (name : String) :
    (ns.get_type name).2.get_type name = ns.get_type name := by
  have h := Namespace.get_type_lookup ns name
  rcases hr : ns.get_type name with ⟨id, ns'⟩
  rw [hr] at h
  show ns'.get_type name = (id, ns')
  unfold Namespace.get_type
  rw [show mapGet name ns'.index = some id from h]

/-- `get_type` never shrinks the slot arena, and the returned identifier is a
valid slot of the updated arena. -/
theorem Namespace.get_type_fst_lt (ns : Namespace) (name : String)
    (hwf : ∀ p ∈ ns.index, p.2 < ns.types.length) :
    (ns.get_type name).1 < (ns.get_type name).2.types.length := by
  unfold Namespace.get_type
  cases h : mapGet name ns.index with
  | some id =>
    simpa using hwf _ (mapGet_mem h)
  | none => simp

/-- The name interned by `add_type` maps to the returned identifier. -/
theorem Namespace.add_type_lookup (ns : Namespace) (name : String) (typ : Typ) :
    mapGet name (ns.add_type name typ).2.index = some (ns.add_type name typ).1 := by
  unfold Namespace.add_type
  simpa using Namespace.get_type_lookup ns name

/-- The identifier returned by `add_type` indexes a slot holding the new type. -/
theorem Namespace.add_type_slot (ns : Namespace) (name : String) (typ : Typ)
    (hwf : ∀ p ∈ ns.index, p.2 < ns.types.length) :
    (ns.add_type name typ).2.types[(ns.add_type name typ).1]? = some (some typ) := by
  unfold Namespace.add_type
  have h := Namespace.get_type_fst_lt ns name hwf
  simpa using List.getElem?_set_self h

/-- `add_type` preserves the slot-index bound. -/
theorem Namespace.add_type_wf (ns : Namespace) (name : String) (typ : Typ)
    (hwf : ∀ p ∈ ns.index, p.2 < ns.types.length) :
    ∀ p ∈ (ns.add_type name typ).2.index, p.2 < (ns.add_type name typ).2.types.length := by
  unfold Namespace.add_type Namespace.get_type
  cases h : mapGet name ns.index with
  | some id =>
    simp only [h]
    intro p hp
    simp at hp ⊢
    exact hwf p hp
  | none =>
    simp only [h]
    intro p hp
    simp at hp ⊢
    rcases hp with hp | hp
    · have := hwf p hp
      omega
    · subst hp
      simp

/-- `add_type` preserves the arena length obtained by `get_type` and keeps the
index unchanged apart from the possible fresh binding. -/
theorem Namespace.add_type_index (ns : Namespace) (name : String) (typ : Typ) :
    (ns.add_type name typ).2.index = (ns.get_type name).2.index ∧
    (ns.add_type name typ).1 = (ns.get_type name).1 ∧
    (ns.add_type name typ).2.types.length = (ns.get_type name).2.types.length := by
  unfold Namespace.add_type
  refine ⟨rfl, rfl, ?_⟩
  simp

/-- Setting a list cell to the value it already holds is a no-op. -/
theorem set_of_getElem? {α : Type} {l : List α} {i : Nat} {a : α}
    (h : l[i]? = some a) : l.set i a = l := by
  induction l generalizing i with
  | nil => simp at h
  | cons x xs ih =>
    cases i with
    | zero =>
      simp at h
      simp [h]
    | succ n =>
      simp at h
      simp [ih h]

/-- If a qualified name's namespace and type are both already interned and the
namespace cell is stable under rewriting, qualified resolution returns them and
leaves the library unchanged. -/
theorem Library.get_type_qualified_stable (L : Library) (cur : Nat)
    (name n1 n2 : String) (k j : Nat)
    (hsp : splitDot name = [n1, n2])
    (hidx : mapGet n1 L.index = some k)
    (hfind : mapGet n2 (L.namespace' k).index = some j)
    (hset : L.namespaces.set k (L.namespace' k) = L.namespaces) :
    L.get_type cur name = some (⟨k, j⟩, L) := by
  have hget : (L.namespace' k).get_type n2 = (j, L.namespace' k) := by
    unfold Namespace.get_type
    rw [hfind]
  simp only [Library.get_type, Library.get_namespace, hsp, hidx, hget, hset]

/-- In-range `getElem?` returns the `getD` value. -/
theorem getElem?_eq_some_getD {α : Type} {l : List α} {i : Nat} (d : α)
    (h : i < l.length) : l[i]? = some (l.getD i d) := by
  rw [List.getD_eq_getElem?_getD, List.getElem?_eq_getElem h]
  rfl

/-- For an in-range slot, emptiness via `getD` coincides with the slot holding
`none`. -/
theorem getD_none_iff {α : Type} {l : List (Option α)} {i : Nat}
    (h : i < l.length) : l.getD i none = none ↔ l[i]? = some none := by
  rw [List.getD_eq_getElem?_getD, List.getElem?_eq_getElem h]
  simp

/-- `get_type` never changes the namespace's stored name. -/
theorem Namespace.get_type_nm (ns : Namespace) (name : String) :
    (ns.get_type name).2.name = ns.name := by
  unfold Namespace.get_type
  cases h : mapGet name ns.index <;> simp [h]

/-- `add_type` never changes the namespace's stored name. -/
theorem Namespace.add_type_nm (ns : Namespace) (name : String) (typ : Typ) :
    (ns.add_type name typ).2.name = ns.name := by
  unfold Namespace.add_type
  simpa using Namespace.get_type_nm ns name

/-- Updating one namespace cell with a namespace of the same stored name
preserves the blank-names invariant, whatever happens to the index. -/
theorem NsNamesBlank_set (lib : Library) (i : Nat) (a : Namespace)
    (idx2 : List (String × Nat)) (hlib : NsNamesBlank lib)
    (ha : a.name = (lib.namespace' i).name) :
    NsNamesBlank ⟨lib.namespaces.set i a, idx2⟩ := by
  intro j ns hj hne
  by_cases hij : i = j
  · subst hij
    rw [List.getElem?_set] at hj
    simp only [if_pos rfl] at hj
    by_cases hlen : i < lib.namespaces.length
    · rw [if_pos hlen] at hj
      have hns : ns = a := (Option.some.inj hj).symm
      subst hns
      rw [ha]
      have := getElem?_eq_some_getD (l := lib.namespaces) Namespace.new hlen
      exact hlib i (lib.namespaces.getD i Namespace.new) this hne
    · rw [if_neg hlen] at hj
      cases hj
  · rw [List.getElem?_set_ne hij] at hj
    exact hlib j ns hj hne

/-- Appending a blank-named namespace preserves the invariant. -/
theorem NsNamesBlank_append (lib : Library) (a : Namespace)
    (idx2 : List (String × Nat)) (hlib : NsNamesBlank lib) (ha : a.name = "") :
    NsNamesBlank ⟨lib.namespaces ++ [a], idx2⟩ := by
  intro j ns hj hne
  by_cases hlt : j < lib.namespaces.length
  · rw [List.getElem?_append, if_pos hlt] at hj
    exact hlib j ns hj hne
  · rw [List.getElem?_append, if_neg hlt] at hj
    have hz : j - lib.namespaces.length = 0 := by
      rcases List.getElem?_eq_some.mp hj with ⟨hh, _⟩
      simp at hh
      omega
    rw [hz] at hj
    simp at hj
    rw [← hj, ha]

/-! ### Decimal rendering: `Nat.repr` as a digit string -/

theorem digitChar_isDigit {m : Nat} (h : m < 10) : (Nat.digitChar m).isDigit = true := by
  interval_cases m <;> decide

theorem digitChar_toNat {m : Nat} (h : m < 10) : (Nat.digitChar m).toNat = m + 48 := by
  interval_cases m <;> decide

theorem toDigitsCore_eq :
    ∀ (fuel n : Nat) (acc : List Char), n < fuel →
      Nat.toDigitsCore 10 fuel n acc = natDigits n ++ acc := by
  intro fuel
  induction fuel with
  | zero => intro n acc h; omega
  | succ f ih =>
    intro n acc h
    rw [Nat.toDigitsCore]
    by_cases hz : n / 10 = 0
    · have hn : n < 10 := by omega
      simp only [hz, if_pos rfl]
      rw [natDigits, if_pos hn]
      have : n % 10 = n := by omega
      rw [this]
      rfl
    · have hn : ¬ n < 10 := by omega
      simp only [if_neg hz]
      have hlt : n / 10 < f := by
        have h1 : n / 10 < n := Nat.div_lt_self (by omega) (by omega)
        omega
      rw [ih (n / 10) (Nat.digitChar (n % 10) :: acc) hlt]
      conv_rhs => rw [natDigits]
      rw [if_neg hn]
      simp

theorem natDigits_all_digit : ∀ (n : Nat), ∀ c ∈ natDigits n, c.isDigit = true := by
  intro n
  induction n using Nat.strong_induction_on with
  | _ n ih =>
    intro c hc
    rw [natDigits] at hc
    by_cases h : n < 10
    · rw [if_pos h] at hc
      simp at hc
      rw [hc]
      exact digitChar_isDigit h
    · rw [if_neg h] at hc
      rcases List.mem_append.mp hc with hc | hc
      · exact ih (n / 10) (Nat.div_lt_self (by omega) (by omega)) c hc
      · simp at hc
        rw [hc]
        exact digitChar_isDigit (Nat.mod_lt _ (by omega))
    
theorem digitsVal_natDigits : ∀ (n : Nat), digitsVal (natDigits n) = n := by
  intro n
  induction n using Nat.strong_induction_on with
  | _ n ih =>
    rw [natDigits]
    by_cases h : n < 10
    · rw [if_pos h]
      simp [digitsVal, digitChar_toNat h]
    · rw [if_neg h]
      have hrec := ih (n / 10) (Nat.div_lt_self (by omega) (by omega))
      simp only [digitsVal, List.foldl_append] at hrec ⊢
      rw [hrec]
      rw [List.foldl]
      rw [List.foldl]
      rw [digitChar_toNat (Nat.mod_lt _ (by omega))]
      omega

theorem natDigits_inj {a b : Nat} (h : natDigits a = natDigits b) : a = b := by
  have ha := digitsVal_natDigits a
  rw [h, digitsVal_natDigits] at ha
  omega

theorem repr_data (n : Nat) : (Nat.repr n).data = natDigits n := by
  show (Nat.toDigits 10 n).asString.data = natDigits n
  rw [Nat.toDigits, toDigitsCore_eq (n + 1) n [] (by omega)]
  simp [List.asString]

/-- The character data of the `Debug` rendering of a `TypeId`. -/
theorem debug_data (t : TypeId) :
    (t.debug).data = ("TypeId \x7b ns_id: ").data ++ natDigits t.ns_id
      ++ (", id: ").data ++ natDigits t.id ++ (" \x7d").data := by
  simp [TypeId.debug, String.data_append, repr_data]

/-- A cons cell headed by a non-digit has a non-digit head. -/
theorem head_cons_nondigit {x : Char} {xs : List Char} (hx : x.isDigit = false) :
    ∀ c, (x :: xs).head? = some c → c.isDigit = false := by
  intro c hc
  simp at hc
  rw [← hc]
  exact hx

/-- Unique decomposition at the first non-digit: two all-digit prefixes
followed by non-digit-headed suffixes coincide chunk by chunk. -/
theorem digits_split :
    ∀ (l1 l2 r1 r2 : List Char),
      (∀ c ∈ l1, c.isDigit = true) → (∀ c ∈ l2, c.isDigit = true) →
      (∀ c, r1.head? = some c → c.isDigit = false) →
      (∀ c, r2.head? = some c → c.isDigit = false) →
      l1 ++ r1 = l2 ++ r2 → l1 = l2 ∧ r1 = r2 := by
  intro l1
  induction l1 with
  | nil =>
    intro l2 r1 r2 _ h2 hr1 _ heq
    cases l2 with
    | nil => exact ⟨rfl, by simpa using heq⟩
    | cons b bs =>
      exfalso
      have hb : b.isDigit = true := h2 b (by simp)
      have hr : r1.head? = some b := by
        rw [show r1 = b :: (bs ++ r2) by simpa using heq]
        rfl
      have := hr1 b hr
      rw [this] at hb
      cases hb
  | cons a as ih =>
    intro l2 r1 r2 h1 h2 hr1 hr2 heq
    cases l2 with
    | nil =>
      exfalso
      have ha : a.isDigit = true := h1 a (by simp)
      have hr : r2.head? = some a := by
        rw [show r2 = a :: (as ++ r1) by simpa using heq.symm]
        rfl
      have := hr2 a hr
      rw [this] at ha
      cases ha
    | cons b bs =>
      simp only [List.cons_append, List.cons.injEq] at heq
      obtain ⟨hab, heq2⟩ := heq
      obtain ⟨hl, hr⟩ := ih bs r1 r2 (fun c hc => h1 c (by simp [hc]))
        (fun c hc => h2 c (by simp [hc])) hr1 hr2 heq2
      exact ⟨by rw [hab, hl], hr⟩

/-- The hash-table canonical keys for swapped key/value TypeIds differ
whenever the TypeIds differ. -/
theorem hashKey_swap_ne {k v : TypeId} (hne : k ≠ v) :
    ("HashTable(#" ++ k.debug ++ ", #" ++ v.debug ++ ")" : String)
      ≠ "HashTable(#" ++ v.debug ++ ", #" ++ k.debug ++ ")" := by
  intro h
  apply hne
  have hd := congrArg String.data h
  simp only [String.data_append, debug_data, List.append_assoc] at hd
  simp only [List.cons_append, List.nil_append, List.cons.injEq, true_and] at hd
  obtain ⟨hns, hrest⟩ := digits_split _ _ _ _
    (natDigits_all_digit k.ns_id) (natDigits_all_digit v.ns_id)
    (head_cons_nondigit (by decide)) (head_cons_nondigit (by decide)) hd
  simp only [List.cons.injEq, true_and] at hrest
  obtain ⟨hid, _⟩ := digits_split _ _ _ _
    (natDigits_all_digit k.id) (natDigits_all_digit v.id)
    (head_cons_nondigit (by decide)) (head_cons_nondigit (by decide)) hrest
  cases k
  cases v
  simp only [TypeId.mk.injEq]
  exact ⟨natDigits_inj hns, natDigits_inj hid⟩

/-- The identifier chosen by `get_type`: the interned binding, or the fresh
slot at the end of the arena. -/
theorem Namespace.get_type_fst (ns : Namespace) (key : String) :
    (ns.get_type key).1 = (match mapGet key ns.index with
      | some j => j
      | none => ns.types.length) := by
  unfold Namespace.get_type
  cases h : mapGet key ns.index <;> simp [h]

/-- `add_type` on an already-interned key: same id, same index, same arena
length. -/
theorem Namespace.add_type_of_found {ns : Namespace} {key1 : String} {j1 : Nat}
    (ty : Typ) (h1 : mapGet key1 ns.index = some j1) :
    (ns.add_type key1 ty).1 = j1 ∧ (ns.add_type key1 ty).2.index = ns.index ∧
    (ns.add_type key1 ty).2.types.length = ns.types.length := by
  unfold Namespace.add_type Namespace.get_type
  rw [h1]
  simp

/-- `add_type` on a fresh key: the id is the old arena length, the index gains
the binding, the arena grows by one. -/
theorem Namespace.add_type_of_fresh {ns : Namespace} {key1 : String}
    (ty : Typ) (h1 : mapGet key1 ns.index = none) :
    (ns.add_type key1 ty).1 = ns.types.length ∧
    (ns.add_type key1 ty).2.index = ns.index ++ [(key1, ns.types.length)] ∧
    (ns.add_type key1 ty).2.types.length = ns.types.length + 1 := by
  unfold Namespace.add_type Namespace.get_type
  rw [h1]
  simp

/-- Interning a second, different key after an `add_type` always yields a
different identifier, on a namespace whose index is in range and
id-injective. -/
theorem Namespace.add_get_ne (ns : Namespace) (key1 key2 : String) (ty : Typ)
    (hk : key1 ≠ key2)
    (hlt : ∀ p ∈ ns.index, p.2 < ns.types.length)
    (hinj : ∀ p ∈ ns.index, ∀ q ∈ ns.index, p.2 = q.2 → p.1 = q.1) :
    ((ns.add_type key1 ty).2.get_type key2).1 ≠ (ns.add_type key1 ty).1 := by
  rw [Namespace.get_type_fst]
  cases h1 : mapGet key1 ns.index with
  | some j1 =>
    obtain ⟨ha1, ha2, ha3⟩ := Namespace.add_type_of_found ty h1
    rw [ha1, ha2, ha3]
    cases h2 : mapGet key2 ns.index with
    | some j2 =>
      simp only [h2]
      intro he
      exact hk (hinj (key1, j1) (mapGet_mem h1) (key2, j2) (mapGet_mem h2) he.symm)
    | none =>
      simp only [h2]
      have hj1 : j1 < ns.types.length := hlt (key1, j1) (mapGet_mem h1)
      omega
  | none =>
    obtain ⟨ha1, ha2, ha3⟩ := Namespace.add_type_of_fresh ty h1
    rw [ha1, ha2, ha3, mapGet_append]
    cases h2 : mapGet key2 ns.index with
    | some j2 =>
      simp only [h2]
      have hj2 : j2 < ns.types.length := hlt (key2, j2) (mapGet_mem h2)
      omega
    | none =>
      simp only [h2]
      rw [show mapGet key2 [(key1, ns.types.length)] = (none : Option Nat) by
        simp [mapGet, hk]]
      simp

/-- Re-adding under the same name in the same namespace issues the same
TypeId, whatever the two payload types. -/
theorem Library.add_type_stable (lib : Library) (i : Nat) (nm : String)
    (tp tp2 : Typ) :
    ((lib.add_type i nm tp).2.add_type i nm tp2).1 = (lib.add_type i nm tp).1 := by
  show (⟨i, (((lib.add_type i nm tp).2.namespace' i).get_type nm).1⟩ : TypeId)
      = ⟨i, ((lib.namespace' i).get_type nm).1⟩
  by_cases hi : i < lib.namespaces.length
  · have h1 : (lib.add_type i nm tp).2.namespace' i
        = ((lib.namespace' i).add_type nm tp).2 := by
      show (lib.namespaces.set i ((lib.namespace' i).add_type nm tp).2).getD i
          Namespace.new = _
      exact getD_set_eq hi
    rw [h1]
    have h2 := Namespace.add_type_lookup (lib.namespace' i) nm tp
    have h3 : ((lib.namespace' i).add_type nm tp).2.get_type nm
        = (((lib.namespace' i).add_type nm tp).1,
           ((lib.namespace' i).add_type nm tp).2) := by
      unfold Namespace.get_type
      rw [h2]
    rw [h3]
    rfl
  · have h1 : (lib.add_type i nm tp).2.namespace' i = lib.namespace' i := by
      show (lib.namespaces.set i ((lib.namespace' i).add_type nm tp).2).getD i
          Namespace.new = lib.namespaces.getD i Namespace.new
      rw [List.set_eq_of_length_le (Nat.le_of_not_lt hi)]
    rw [h1]

/-- Synthesizing the same canonical key twice yields the same TypeId. -/
theorem container_second (lib : Library) (key : String) (ty : Typ)
    (t1 : TypeId) (lib1 : Library)
    (h : lib.add_type INTERNAL_NAMESPACE key ty = (t1, lib1)) :
    ∃ lib2, lib1.add_type INTERNAL_NAMESPACE key ty = (t1, lib2) := by
  have h1 : (lib.add_type INTERNAL_NAMESPACE key ty).1 = t1 := by rw [h]
  have h2 : (lib.add_type INTERNAL_NAMESPACE key ty).2 = lib1 := by rw [h]
  subst h2
  refine ⟨((lib.add_type INTERNAL_NAMESPACE key ty).2.add_type
      INTERNAL_NAMESPACE key ty).2, ?_⟩
  refine Prod.ext ?_ rfl
  rw [Library.add_type_stable]
  exact h1

/-! ### Claim theorems -/

/-- C10: only `Library::new` ever assigns a namespace name (to the internal
namespace): lazily created namespaces carry the blank name, and every
operation preserves this, so name-to-identifier association lives only in
the library index. -/
theorem claim_C10_lazy_namespace_names :
    NsNamesBlank Library.new ∧
    (∀ (lib : Library) (name : String),
       NsNamesBlank lib → NsNamesBlank (lib.get_namespace name).2) ∧
    (∀ (lib : Library) (i : Nat) (name : String) (typ : Typ),
       NsNamesBlank lib → NsNamesBlank (lib.add_type i name typ).2) ∧
    (∀ (lib : Library) (cur : Nat) (name : String) (r : TypeId × Library),
       NsNamesBlank lib → lib.get_type cur name = some r → NsNamesBlank r.2) ∧
    (∀ (lib : Library) (name : String) (inner : TypeIdList) (r : TypeId × Library),
       NsNamesBlank lib → Typ.container lib name inner = some r → NsNamesBlank r.2) := by
  have hadd : ∀ (lib : Library) (i : Nat) (name : String) (typ : Typ),
      NsNamesBlank lib → NsNamesBlank (lib.add_type i name typ).2 := by
    intro lib i name typ hlib
    exact NsNamesBlank_set lib i _ _ hlib (Namespace.add_type_nm _ name typ)
  refine ⟨?_, ?_, hadd, ?_, ?_⟩
  · intro j ns hj hne
    have hlen : Library.new.namespaces.length = 1 := rfl
    rcases List.getElem?_eq_some.mp hj with ⟨hlt, _⟩
    rw [hlen] at hlt
    have h0 : INTERNAL_NAMESPACE = 0 := rfl
    rw [h0] at hne
    omega
  · intro lib name hlib
    unfold Library.get_namespace
    cases h : mapGet name lib.index with
    | some id =>
      exact hlib
    | none =>
      exact NsNamesBlank_append lib Namespace.new _ hlib rfl
  · intro lib cur name r hlib heq
    rcases hsp : splitDot name with _ | ⟨n1, _ | ⟨n2, _ | _⟩⟩
    · simp only [Library.get_type, hsp] at heq
      cases heq
    · simp only [Library.get_type, hsp] at heq
      cases hf : (lib.namespace' INTERNAL_NAMESPACE).find_type n1 with
      | some id =>
        rw [hf] at heq
        injection heq with h2
        rw [← h2]
        exact hlib
      | none =>
        rw [hf] at heq
        injection heq with h2
        rw [← h2]
        exact NsNamesBlank_set lib cur _ _ hlib (Namespace.get_type_nm _ n1)
    · simp only [Library.get_type, Library.get_namespace, hsp] at heq
      cases hg : mapGet n1 lib.index with
      | some i =>
        rw [hg] at heq
        injection heq with h2
        rw [← h2]
        exact NsNamesBlank_set lib i _ _ hlib (Namespace.get_type_nm _ n2)
      | none =>
        rw [hg] at heq
        injection heq with h2
        rw [← h2]
        have hlib2 : NsNamesBlank ⟨lib.namespaces ++ [Namespace.new],
            lib.index ++ [(n1, lib.namespaces.length)]⟩ :=
          NsNamesBlank_append lib Namespace.new _ hlib rfl
        exact NsNamesBlank_set
          ⟨lib.namespaces ++ [Namespace.new], lib.index ++ [(n1, lib.namespaces.length)]⟩
          lib.namespaces.length _ _ hlib2 (Namespace.get_type_nm _ n2)
    · simp only [Library.get_type, hsp] at heq
      cases heq
  · intro lib name inner r hlib heq
    unfold Typ.container at heq
    split at heq
    · rw [Option.map_some'] at heq
      injection heq with h2
      rw [← h2]
      exact hadd lib INTERNAL_NAMESPACE _ _ hlib
    · rw [Option.map_some'] at heq
      injection heq with h2
      rw [← h2]
      exact hadd lib INTERNAL_NAMESPACE _ _ hlib
    · rw [Option.map_some'] at heq
      injection heq with h2
      rw [← h2]
      exact hadd lib INTERNAL_NAMESPACE _ _ hlib
    · rw [Option.map_some'] at heq
      injection heq with h2
      rw [← h2]
      exact hadd lib INTERNAL_NAMESPACE _ _ hlib
    · cases heq

/-- C10 witness: lazily creating `Foo` on the fresh library keeps every
non-internal namespace name blank. -/
theorem claim_C10_lazy_namespace_names_witness :
    NsNamesBlank (Library.new.get_namespace ("Foo")).2 :=
  claim_C10_lazy_namespace_names.2.1 Library.new ("Foo")
    claim_C10_lazy_namespace_names.1

/-- C1: an unqualified name that is interned in the reserved internal
namespace resolves to the internal namespace's TypeId, for every library and
every current namespace (so a namespace can never shadow a fundamental or a
synthesized internal type), and the library is left unchanged. -/
theorem claim_C1_fundamental_precedence (lib : Library) (cur : Nat) (name : String) (id : Nat)
    (hunqualified : splitDot name = [name])
    (hinterned : (lib.namespace' INTERNAL_NAMESPACE).find_type name = some id) :
    lib.get_type cur name = some (⟨INTERNAL_NAMESPACE, id⟩, lib) := by
  simp [Library.get_type, hunqualified, hinterned]

/-- C1 witness: `gint32` resolves to the fundamental slot 6 of the internal
namespace in the freshly seeded library, from current namespace 5. -/
theorem claim_C1_fundamental_precedence_witness :
    splitDot ("gint32") = ["gint32"] ∧
    (Library.new.namespace' INTERNAL_NAMESPACE).find_type ("gint32") = some 6 ∧
    Library.new.get_type 5 ("gint32") = some (⟨INTERNAL_NAMESPACE, 6⟩, Library.new) :=
  ⟨rfl, rfl, claim_C1_fundamental_precedence Library.new 5 ("gint32") 6 rfl rfl⟩

/-- C4: container synthesis deduplicates structurally through its canonical
key: re-synthesizing any supported kind with the same ordered element
TypeIds returns the same TypeId, and synthesizing a hash table with swapped
(distinct) key/value TypeIds after the unswapped one yields a different
TypeId.  The hypotheses of the second part are the internal namespace's
reachable-state invariants (slot ids in range and id-injective index). -/
theorem claim_C4_container_dedup :
    (∀ (lib : Library) (name : String) (inner : TypeIdList) (t1 : TypeId)
       (lib1 : Library),
       Typ.container lib name inner = some (t1, lib1) →
       ∃ lib2, Typ.container lib1 name inner = some (t1, lib2)) ∧
    (∀ (lib : Library) (k v t1 t2 : TypeId) (lib1 lib2 : Library),
       k ≠ v → 0 < lib.namespaces.length →
       (∀ p ∈ (lib.namespace' INTERNAL_NAMESPACE).index,
          p.2 < (lib.namespace' INTERNAL_NAMESPACE).types.length) →
       (∀ p ∈ (lib.namespace' INTERNAL_NAMESPACE).index,
          ∀ q ∈ (lib.namespace' INTERNAL_NAMESPACE).index, p.2 = q.2 → p.1 = q.1) →
       Typ.container lib ("GLib.HashTable") [k, v] = some (t1, lib1) →
       Typ.container lib1 ("GLib.HashTable") [v, k] = some (t2, lib2) →
       t1 ≠ t2) := by
  constructor
  · intro lib name inner t1 lib1 h
    unfold Typ.container at h ⊢
    split at h
    · rw [Option.map_some'] at h
      injection h with h'
      obtain ⟨lib2, hq⟩ := container_second lib _ _ t1 lib1 h'
      exact ⟨lib2, by rw [Option.map_some', hq]⟩
    · rw [Option.map_some'] at h
      injection h with h'
      obtain ⟨lib2, hq⟩ := container_second lib _ _ t1 lib1 h'
      exact ⟨lib2, by rw [Option.map_some', hq]⟩
    · rw [Option.map_some'] at h
      injection h with h'
      obtain ⟨lib2, hq⟩ := container_second lib _ _ t1 lib1 h'
      exact ⟨lib2, by rw [Option.map_some', hq]⟩
    · rw [Option.map_some'] at h
      injection h with h'
      obtain ⟨lib2, hq⟩ := container_second lib _ _ t1 lib1 h'
      exact ⟨lib2, by rw [Option.map_some', hq]⟩
    · cases h
  · intro lib k v t1 t2 lib1 lib2 hkv h0 hlt hinj h1 h2
    have hkey : ("HashTable(#" ++ k.debug ++ ", #" ++ v.debug ++ ")" : String)
        ≠ "HashTable(#" ++ v.debug ++ ", #" ++ k.debug ++ ")" := hashKey_swap_ne hkv
    simp only [Typ.container, Option.map_some'] at h1 h2
    injection h1 with h1'
    injection h2 with h2'
    have hT1 : (lib.add_type INTERNAL_NAMESPACE
        ("HashTable(#" ++ k.debug ++ ", #" ++ v.debug ++ ")")
        (Typ.HashTable k v)).1 = t1 := by rw [h1']
    have hL1 : (lib.add_type INTERNAL_NAMESPACE
        ("HashTable(#" ++ k.debug ++ ", #" ++ v.debug ++ ")")
        (Typ.HashTable k v)).2 = lib1 := by rw [h1']
    have hT2 : (lib1.add_type INTERNAL_NAMESPACE
        ("HashTable(#" ++ v.debug ++ ", #" ++ k.debug ++ ")")
        (Typ.HashTable v k)).1 = t2 := by rw [h2']
    subst hL1
    intro he
    have hmain : (lib.add_type INTERNAL_NAMESPACE
        ("HashTable(#" ++ k.debug ++ ", #" ++ v.debug ++ ")")
        (Typ.HashTable k v)).1
        = ((lib.add_type INTERNAL_NAMESPACE
            ("HashTable(#" ++ k.debug ++ ", #" ++ v.debug ++ ")")
            (Typ.HashTable k v)).2.add_type INTERNAL_NAMESPACE
            ("HashTable(#" ++ v.debug ++ ", #" ++ k.debug ++ ")")
            (Typ.HashTable v k)).1 := by
      rw [hT1, hT2]
      exact he
    have hid : ((lib.namespace' INTERNAL_NAMESPACE).get_type
          ("HashTable(#" ++ k.debug ++ ", #" ++ v.debug ++ ")")).1
        = (((lib.add_type INTERNAL_NAMESPACE
            ("HashTable(#" ++ k.debug ++ ", #" ++ v.debug ++ ")")
            (Typ.HashTable k v)).2.namespace' INTERNAL_NAMESPACE).get_type
            ("HashTable(#" ++ v.debug ++ ", #" ++ k.debug ++ ")")).1 :=
      congrArg TypeId.id hmain
    have hns : (lib.add_type INTERNAL_NAMESPACE
          ("HashTable(#" ++ k.debug ++ ", #" ++ v.debug ++ ")")
          (Typ.HashTable k v)).2.namespace' INTERNAL_NAMESPACE
        = ((lib.namespace' INTERNAL_NAMESPACE).add_type
            ("HashTable(#" ++ k.debug ++ ", #" ++ v.debug ++ ")")
            (Typ.HashTable k v)).2 := by
      show (lib.namespaces.set INTERNAL_NAMESPACE _).getD INTERNAL_NAMESPACE
          Namespace.new = _
      exact getD_set_eq h0
    rw [hns] at hid
    exact Namespace.add_get_ne (lib.namespace' INTERNAL_NAMESPACE) _ _
      (Typ.HashTable k v) hkey hlt hinj hid.symm

set_option maxHeartbeats 1000000 in
/-- C4 witness: re-synthesizing `array` of fundamental slot 0 returns the same
TypeId, and the swapped hash table of slots 0 and 1 gets a different TypeId
than the unswapped one, in the freshly seeded library. -/
theorem claim_C4_container_dedup_witness :
    (∃ lib2, Typ.container
        ((Typ.container Library.new ("array") [⟨0, 0⟩]).getD (⟨0, 0⟩, Library.new)).2
        ("array") [⟨0, 0⟩]
      = some (((Typ.container Library.new ("array") [⟨0, 0⟩]).getD
          (⟨0, 0⟩, Library.new)).1, lib2)) ∧
    ((Typ.container Library.new ("GLib.HashTable") [⟨0, 0⟩, ⟨0, 1⟩]).getD
        (⟨0, 0⟩, Library.new)).1
      ≠ ((Typ.container
          ((Typ.container Library.new ("GLib.HashTable") [⟨0, 0⟩, ⟨0, 1⟩]).getD
            (⟨0, 0⟩, Library.new)).2
          ("GLib.HashTable") [⟨0, 1⟩, ⟨0, 0⟩]).getD (⟨0, 0⟩, Library.new)).1 :=
  ⟨claim_C4_container_dedup.1 Library.new ("array") [⟨0, 0⟩]
      ((Typ.container Library.new ("array") [⟨0, 0⟩]).getD (⟨0, 0⟩, Library.new)).1
      ((Typ.container Library.new ("array") [⟨0, 0⟩]).getD (⟨0, 0⟩, Library.new)).2
      rfl,
   claim_C4_container_dedup.2 Library.new ⟨0, 0⟩ ⟨0, 1⟩
      ((Typ.container Library.new ("GLib.HashTable") [⟨0, 0⟩, ⟨0, 1⟩]).getD
        (⟨0, 0⟩, Library.new)).1
      ((Typ.container
          ((Typ.container Library.new ("GLib.HashTable") [⟨0, 0⟩, ⟨0, 1⟩]).getD
            (⟨0, 0⟩, Library.new)).2
          ("GLib.HashTable") [⟨0, 1⟩, ⟨0, 0⟩]).getD (⟨0, 0⟩, Library.new)).1
      ((Typ.container Library.new ("GLib.HashTable") [⟨0, 0⟩, ⟨0, 1⟩]).getD
        (⟨0, 0⟩, Library.new)).2
      ((Typ.container
          ((Typ.container Library.new ("GLib.HashTable") [⟨0, 0⟩, ⟨0, 1⟩]).getD
            (⟨0, 0⟩, Library.new)).2
          ("GLib.HashTable") [⟨0, 1⟩, ⟨0, 0⟩]).getD (⟨0, 0⟩, Library.new)).2
      (by decide) (by decide) (by decide) (by decide) rfl rfl⟩

/-- C5: the validation sweep fails exactly when some named slot of some
indexed namespace is still empty, and on failure the reported list contains
precisely the qualified names `namespace.name` of all empty slots.  The
hypotheses are the reachable-state invariants: every namespace id in the
library index and every slot id in a namespace index is in range. -/
theorem claim_C5_check_resolved_complete (lib : Library)
    (hns : ∀ p ∈ lib.index, p.2 < lib.namespaces.length)
    (hty : ∀ p ∈ lib.index, ∀ q ∈ (lib.namespaces.getD p.2 Namespace.new).index,
       q.2 < (lib.namespaces.getD p.2 Namespace.new).types.length) :
    (lib.check_resolved = Except.ok () ↔
      ¬ ∃ p ∈ lib.index, ∃ ns, lib.namespaces[p.2]? = some ns ∧
          ∃ q ∈ ns.index, ns.types[q.2]? = some none) ∧
    (∀ l, lib.check_resolved = Except.error l →
      ∀ s, s ∈ l ↔ ∃ p ∈ lib.index, ∃ ns, lib.namespaces[p.2]? = some ns ∧
          ∃ q ∈ ns.index, ns.types[q.2]? = some none ∧ s = p.1 ++ "." ++ q.1) := by
  have hchar : ∀ s, s ∈ lib.unresolved_list ↔
      ∃ p ∈ lib.index, ∃ ns, lib.namespaces[p.2]? = some ns ∧
        ∃ q ∈ ns.index, ns.types[q.2]? = some none ∧ s = p.1 ++ "." ++ q.1 := by
    intro s
    constructor
    · intro hs
      rcases List.mem_flatMap.mp hs with ⟨p, hp, hs2⟩
      rcases List.mem_map.mp hs2 with ⟨u, hu, hsu⟩
      rcases List.mem_filterMap.mp hu with ⟨q, hq, hfq⟩
      have hq' : q ∈ (lib.namespaces.getD p.2 Namespace.new).index := hq
      have hcond : (lib.namespaces.getD p.2 Namespace.new).types.getD q.2 none = none
          ∧ q.1 = u := by
        by_cases hc : ((lib.namespace' p.2).types.getD q.2 none).isNone = true
        · rw [if_pos hc] at hfq
          refine ⟨Option.isNone_iff_eq_none.mp hc, ?_⟩
          exact Option.some.inj hfq
        · rw [if_neg hc] at hfq
          cases hfq
      refine ⟨p, hp, lib.namespaces.getD p.2 Namespace.new,
        getElem?_eq_some_getD Namespace.new (hns p hp), q, hq', ?_, ?_⟩
      · exact (getD_none_iff (hty p hp q hq')).mp hcond.1
      · rw [← hsu, hcond.2]
    · rintro ⟨p, hp, ns, hns2, q, hq, hslot, hs⟩
      have hnseq : ns = lib.namespaces.getD p.2 Namespace.new := by
        have h2 := getElem?_eq_some_getD (l := lib.namespaces) Namespace.new (hns p hp)
        rw [hns2] at h2
        exact Option.some.inj h2
      subst hnseq
      refine List.mem_flatMap.mpr ⟨p, hp, List.mem_map.mpr ⟨q.1, ?_, hs.symm⟩⟩
      refine List.mem_filterMap.mpr ⟨q, hq, ?_⟩
      have hc : ((lib.namespace' p.2).types.getD q.2 none).isNone = true := by
        rw [Option.isNone_iff_eq_none]
        exact (getD_none_iff (hty p hp q hq)).mpr hslot
      rw [if_pos hc]
  constructor
  · constructor
    · intro hok hex
      rcases hex with ⟨p, hp, ns, hns2, q, hq, hslot⟩
      have hempty : lib.unresolved_list.isEmpty = true := by
        by_contra hne
        simp only [Library.check_resolved] at hok
        rw [if_neg hne] at hok
        cases hok
      rw [List.isEmpty_iff] at hempty
      have := (hchar (p.1 ++ "." ++ q.1)).mpr ⟨p, hp, ns, hns2, q, hq, hslot, rfl⟩
      rw [hempty] at this
      cases this
    · intro hnone
      have hnil : lib.unresolved_list = [] := by
        by_contra hne
        rcases List.exists_mem_of_ne_nil _ hne with ⟨s, hs⟩
        rcases (hchar s).mp hs with ⟨p, hp, ns, hns2, q, hq, hslot, _⟩
        exact hnone ⟨p, hp, ns, hns2, q, hq, hslot⟩
      simp [Library.check_resolved, hnil]
  · intro l herr s
    have hl : l = lib.unresolved_list := by
      simp only [Library.check_resolved] at herr
      by_cases hne : lib.unresolved_list.isEmpty = true
      · rw [if_pos hne] at herr
        cases herr
      · rw [if_neg hne] at herr
        exact (Except.error.inj herr).symm
    rw [hl]
    exact hchar s

/-- C5 witness: a library with one empty slot `Foo.Widget` and one resolved
slot fails with exactly that qualified name; emptied, it succeeds. -/
theorem claim_C5_check_resolved_complete_witness :
    ((Library.mk [Namespace.mk ("") [none] [("Widget", 0)] [] []] [("Foo", 0)]).check_resolved
        = Except.ok () ↔
      ¬ ∃ p ∈ [("Foo", 0)], ∃ ns,
          [Namespace.mk ("") [none] [("Widget", 0)] [] []][p.2]? = some ns ∧
          ∃ q ∈ ns.index, ns.types[q.2]? = some none) ∧
    (∀ l, (Library.mk [Namespace.mk ("") [none] [("Widget", 0)] [] []]
          [("Foo", 0)]).check_resolved = Except.error l →
      ∀ s, s ∈ l ↔ ∃ p ∈ [("Foo", 0)], ∃ ns,
          [Namespace.mk ("") [none] [("Widget", 0)] [] []][p.2]? = some ns ∧
          ∃ q ∈ ns.index, ns.types[q.2]? = some none ∧ s = p.1 ++ "." ++ q.1) :=
  claim_C5_check_resolved_complete
    (Library.mk [Namespace.mk ("") [none] [("Widget", 0)] [] []] [("Foo", 0)])
    (by decide) (by decide)

/-- C6: container synthesis on any kind/arity combination other than
`array`/1, `GLib.HashTable`/2, `GLib.List`/1, `GLib.SList`/1 produces no
result at all (in the pure model no updated library is produced, so nothing
is created). -/
theorem claim_C6_unsupported_container (lib : Library) (name : String) (inner : TypeIdList)
    (h : ¬ ((name = "array" ∧ inner.length = 1) ∨
            (name = "GLib.HashTable" ∧ inner.length = 2) ∨
            (name = "GLib.List" ∧ inner.length = 1) ∨
            (name = "GLib.SList" ∧ inner.length = 1))) :
    Typ.container lib name inner = none := by
  unfold Typ.container
  split
  · exact absurd (Or.inl ⟨rfl, rfl⟩) h
  · exact absurd (Or.inr (Or.inl ⟨rfl, rfl⟩)) h
  · exact absurd (Or.inr (Or.inr (Or.inl ⟨rfl, rfl⟩))) h
  · exact absurd (Or.inr (Or.inr (Or.inr ⟨rfl, rfl⟩))) h
  · rfl

/-- C6 witness: a zero-arity `array` request produces no result. -/
theorem claim_C6_unsupported_container_witness :
    Typ.container Library.new ("array") [] = none :=
  claim_C6_unsupported_container Library.new ("array") [] (by decide)

/-- C7: representation derivation of the `Unsupported` fundamental (the kind
behind `long double` and `va_list`) reaches the fatal error branch (no
fallback spelling), while every other fundamental yields its fixed
spelling. -/
theorem claim_C7_unsupported_fundamental :
    (∀ lib : Library, Fundamental.as_arg Fundamental.Unsupported lib = none) ∧
    (("long double", Fundamental.Unsupported) ∈ FUNDAMENTAL ∧
     ("va_list", Fundamental.Unsupported) ∈ FUNDAMENTAL) ∧
    (∀ (f : Fundamental) (lib : Library),
       f ≠ Fundamental.Unsupported → (Fundamental.as_arg f lib).isSome = true) := by
  refine ⟨fun lib => rfl, ⟨by decide, by decide⟩, fun f lib hf => ?_⟩
  cases f <;> simp [Fundamental.as_arg] at hf ⊢

/-- C7 witness: `Int32` is not the unsupported kind and derives a
representation. -/
theorem claim_C7_unsupported_fundamental_witness :
    (Fundamental.as_arg Fundamental.Int32 Library.new).isSome = true :=
  claim_C7_unsupported_fundamental.2.2 Fundamental.Int32 Library.new (by decide)

/-- C9: defining a name twice in the same namespace raises no error: the
second `add_type` returns the same identifier as the first and the shared
TypeId now resolves to the newer type. -/
theorem claim_C9_redefinition_overwrites (lib : Library) (ns_id : Nat) (name : String)
    (t1 t2 : Typ)
    (hns : ns_id < lib.namespaces.length)
    (hwf : ∀ p ∈ (lib.namespace' ns_id).index, p.2 < (lib.namespace' ns_id).types.length) :
    ((lib.add_type ns_id name t1).2.add_type ns_id name t2).1 = (lib.add_type ns_id name t1).1 ∧
    ((lib.add_type ns_id name t1).2.add_type ns_id name t2).2.type_by_id
        (lib.add_type ns_id name t1).1 = some t2 := by
  set ns := lib.namespace' ns_id with hnsdef
  have h1 := Namespace.add_type_lookup ns name t1
  have hslot := Namespace.add_type_slot ns name t1 hwf
  set ns1 := (ns.add_type name t1).2 with hns1
  set i1 := (ns.add_type name t1).1 with hi1
  have hi1lt : i1 < ns1.types.length := by
    rcases List.getElem?_eq_some.mp hslot with ⟨h, _⟩
    exact h
  have hlib1 : (lib.add_type ns_id name t1).2 =
      { lib with namespaces := lib.namespaces.set ns_id ns1 } := rfl
  have htid : (lib.add_type ns_id name t1).1 = ⟨ns_id, i1⟩ := rfl
  have hlib1ns : (lib.add_type ns_id name t1).2.namespace' ns_id = ns1 := by
    rw [hlib1]
    simp only [Library.namespace']
    exact getD_set_eq hns
  have hsecond : ns1.add_type name t2 =
      (i1, { ns1 with types := ns1.types.set i1 (some t2) }) := by
    unfold Namespace.add_type Namespace.get_type
    rw [h1]
  have houter1 : ((lib.add_type ns_id name t1).2.add_type ns_id name t2).1
      = ⟨ns_id, (((lib.add_type ns_id name t1).2.namespace' ns_id).add_type name t2).1⟩ := rfl
  have houter2 : ((lib.add_type ns_id name t1).2.add_type ns_id name t2).2
      = { (lib.add_type ns_id name t1).2 with
          namespaces := (lib.add_type ns_id name t1).2.namespaces.set ns_id
            (((lib.add_type ns_id name t1).2.namespace' ns_id).add_type name t2).2 } := rfl
  constructor
  · rw [houter1, hlib1ns, hsecond, htid]
  · rw [htid, houter2, hlib1ns, hsecond, hlib1]
    have hlen : ns_id < (lib.namespaces.set ns_id ns1).length := by
      simpa using hns
    simp only [Library.type_by_id]
    rw [List.getElem?_set_self hlen]
    simp only [Namespace.type_by_id]
    rw [List.getElem?_set_self hi1lt]

/-- C3: interning is idempotent.  A second `Namespace.get_type` with the same
name returns the same identifier and the unchanged namespace; a second
`Library.get_type` with the same current namespace and the same name returns
the same TypeId and the unchanged library. -/
theorem claim_C3_idempotent_interning :
    (∀ (ns : Namespace) (name : String),
       (ns.get_type name).2.get_type name = ns.get_type name) ∧
    (∀ (lib : Library) (cur : Nat) (name : String) (t : TypeId) (lib' : Library),
       lib.get_type cur name = some (t, lib') → lib'.get_type cur name = some (t, lib')) := by
  refine ⟨Namespace.get_type_idem, ?_⟩
  intro lib cur name t lib' h
  rcases hsp : splitDot name with _ | ⟨n1, _ | ⟨n2, _ | _⟩⟩
  · simp only [Library.get_type, hsp] at h
    simp at h
  · -- unqualified name
    simp only [Library.get_type, hsp] at h
    cases hf : (lib.namespace' INTERNAL_NAMESPACE).find_type n1 with
    | some id =>
      rw [hf] at h
      simp at h
      obtain ⟨ht, hl⟩ := h
      subst ht
      subst hl
      simp only [Library.get_type, hsp, hf]
    | none =>
      rw [hf] at h
      simp at h
      obtain ⟨ht, hl⟩ := h
      subst ht
      subst hl
      set R := (lib.namespace' cur).get_type n1 with hR
      set L' : Library := ⟨lib.namespaces.set cur R.2, lib.index⟩ with hL'
      by_cases hcur : cur < lib.namespaces.length
      · have hLcur : L'.namespace' cur = R.2 := by
          rw [hL']
          simp only [Library.namespace']
          exact getD_set_eq hcur
        by_cases h0 : cur = INTERNAL_NAMESPACE
        · subst h0
          have hfind : (L'.namespace' INTERNAL_NAMESPACE).find_type n1 = some R.1 := by
            rw [hLcur, hR]
            exact Namespace.get_type_lookup _ n1
          simp only [Library.get_type, hsp, hfind]
        · have hfind : (L'.namespace' INTERNAL_NAMESPACE).find_type n1 = none := by
            have : L'.namespace' INTERNAL_NAMESPACE = lib.namespace' INTERNAL_NAMESPACE := by
              rw [hL']
              simp only [Library.namespace']
              exact getD_set_ne h0
            rw [this]
            exact hf
          have hcur2 : (L'.namespace' cur).get_type n1 = R := by
            rw [hLcur, hR]
            exact Namespace.get_type_idem _ n1
          simp only [Library.get_type, hsp, hfind, hcur2, List.set_set]
      · have hLlib : L' = lib := by
          rw [hL', List.set_eq_of_length_le (Nat.le_of_not_lt hcur)]
        rw [hLlib]
        simp only [Library.get_type, hsp, hf, ← hR,
          List.set_eq_of_length_le (Nat.le_of_not_lt hcur)]
  · -- qualified name
    simp only [Library.get_type, Library.get_namespace, hsp] at h
    cases hg : mapGet n1 lib.index with
    | some i =>
      rw [hg] at h
      simp at h
      obtain ⟨ht, hl⟩ := h
      subst ht
      subst hl
      set R := (lib.namespace' i).get_type n2 with hR
      set L' : Library := ⟨lib.namespaces.set i R.2, lib.index⟩ with hL'
      have hidx : mapGet n1 L'.index = some i := hg
      by_cases hi : i < lib.namespaces.length
      · have hLi : L'.namespace' i = R.2 := by
          rw [hL']
          simp only [Library.namespace']
          exact getD_set_eq hi
        have hcur2 : (L'.namespace' i).get_type n2 = R := by
          rw [hLi, hR]
          exact Namespace.get_type_idem _ n2
        simp only [Library.get_type, Library.get_namespace, hsp, hidx, hcur2, List.set_set]
      · have hLlib : L' = lib := by
          rw [hL', List.set_eq_of_length_le (Nat.le_of_not_lt hi)]
        rw [hLlib]
        simp only [Library.get_type, Library.get_namespace, hsp, hg, ← hR,
          List.set_eq_of_length_le (Nat.le_of_not_lt hi)]
    | none =>
      rw [hg] at h
      simp at h
      obtain ⟨ht, hl⟩ := h
      subst ht
      subst hl
      set R := (Library.namespace'
          ⟨lib.namespaces ++ [Namespace.new], lib.index ++ [(n1, lib.namespaces.length)]⟩
          lib.namespaces.length).get_type n2 with hR
      set L' : Library := ⟨lib.namespaces ++ [R.2],
          lib.index ++ [(n1, lib.namespaces.length)]⟩ with hL'
      have hnew : Library.namespace'
          ⟨lib.namespaces ++ [Namespace.new], lib.index ++ [(n1, lib.namespaces.length)]⟩
          lib.namespaces.length = Namespace.new := by
        simp only [Library.namespace']
        exact getD_append_length lib.namespaces Namespace.new Namespace.new
      have hlen : lib.namespaces.length < (lib.namespaces ++ [Namespace.new]).length := by
        simp
      have hidx : mapGet n1 L'.index = some lib.namespaces.length := by
        rw [hL']
        show mapGet n1 (lib.index ++ [(n1, lib.namespaces.length)])
            = some lib.namespaces.length
        rw [mapGet_append, hg]
        simp [mapGet]
      have hLl : L'.namespace' lib.namespaces.length = R.2 := by
        rw [hL']
        simp only [Library.namespace']
        exact getD_append_length lib.namespaces R.2 Namespace.new
      refine Library.get_type_qualified_stable L' cur name n1 n2
        lib.namespaces.length R.1 hsp hidx ?_ ?_
      · rw [hLl]
        have hlk := Namespace.get_type_lookup
          (Library.namespace'
            ⟨lib.namespaces ++ [Namespace.new], lib.index ++ [(n1, lib.namespaces.length)]⟩
            lib.namespaces.length) n2
        rw [← hR] at hlk
        exact hlk
      · rw [hLl, hL']
        exact set_of_getElem? (List.getElem?_concat_length lib.namespaces R.2)
  · -- a multiply-qualified name never resolves
    simp only [Library.get_type, hsp] at h
    simp at h

/-- C2: resolving a qualified name before any definition yields a TypeId whose
slot is empty; defining the type afterwards in that namespace via `add_type`
issues the very same TypeId, which then resolves to the defined type. -/
theorem claim_C2_forward_reference (lib : Library) (cur : Nat)
    (name nsName tyName : String) (typ : Typ)
    (hsplit : splitDot name = [nsName, tyName])
    (hns : ∀ i, mapGet nsName lib.index = some i → i < lib.namespaces.length)
    (hty : ∀ i, mapGet nsName lib.index = some i →
       ∀ j, mapGet tyName (lib.namespace' i).index = some j →
         (lib.namespace' i).types[j]? = some none) :
    (lib.get_type cur name).isSome = true ∧
    ∀ t lib', lib.get_type cur name = some (t, lib') →
      lib'.type_by_id t = none ∧
      (lib'.add_type t.ns_id tyName typ).1 = t ∧
      (lib'.add_type t.ns_id tyName typ).2.type_by_id t = some typ := by
  cases hg : mapGet nsName lib.index with
  | some i =>
    have hi : i < lib.namespaces.length := hns i hg
    constructor
    · simp only [Library.get_type, Library.get_namespace, hsplit, hg, Option.isSome_some]
    intro t lib' heq
    simp only [Library.get_type, Library.get_namespace, hsplit, hg,
      Namespace.get_type] at heq
    cases hf : mapGet tyName (lib.namespace' i).index with
    | some j =>
      have hslot : (lib.namespace' i).types[j]? = some none := hty i hg j hf
      have hj : j < (lib.namespace' i).types.length := by
        rcases List.getElem?_eq_some.mp hslot with ⟨h, _⟩
        exact h
      have hfD : mapGet tyName (lib.namespaces.getD i Namespace.new).index = some j := hf
      have hslotD : (lib.namespaces.getD i Namespace.new).types[j]? = some none := hslot
      have hjD : j < (lib.namespaces.getD i Namespace.new).types.length := hj
      rw [hf] at heq
      simp at heq
      obtain ⟨ht, hl⟩ := heq
      subst ht
      subst hl
      refine ⟨?_, ?_, ?_⟩
      · simp only [Library.type_by_id, Library.namespace']
        rw [List.getElem?_set_self hi]
        simp only [Namespace.type_by_id]
        rw [hslotD]
      · simp only [Library.add_type, Library.namespace']
        rw [getD_set_eq hi]
        simp only [Namespace.add_type, Namespace.get_type, hfD]
      · simp only [Library.add_type, Library.namespace']
        rw [getD_set_eq hi]
        simp only [Namespace.add_type, Namespace.get_type, hfD]
        simp only [Library.type_by_id, List.set_set]
        rw [List.getElem?_set_self hi]
        simp only [Namespace.type_by_id]
        rw [List.getElem?_set_self hjD]
    | none =>
      rw [hf] at heq
      simp at heq
      obtain ⟨ht, hl⟩ := heq
      subst ht
      subst hl
      have hlookup : mapGet tyName
          ((lib.namespaces.getD i Namespace.new).index
            ++ [(tyName, (lib.namespaces.getD i Namespace.new).types.length)])
          = some (lib.namespaces.getD i Namespace.new).types.length := by
        rw [mapGet_append]
        rw [show mapGet tyName (lib.namespaces.getD i Namespace.new).index
              = (none : Option Nat) from hf]
        simp [mapGet]
      refine ⟨?_, ?_, ?_⟩
      · simp only [Library.type_by_id, Library.namespace']
        rw [List.getElem?_set_self hi]
        simp only [Namespace.type_by_id]
        rw [List.getElem?_concat_length]
      · simp only [Library.add_type, Library.namespace']
        rw [getD_set_eq hi]
        simp only [Namespace.add_type, Namespace.get_type, hlookup]
      · simp only [Library.add_type, Library.namespace']
        rw [getD_set_eq hi]
        simp only [Namespace.add_type, Namespace.get_type, hlookup]
        simp only [Library.type_by_id, List.set_set]
        rw [List.getElem?_set_self hi]
        simp only [Namespace.type_by_id]
        have hlt : (lib.namespaces.getD i Namespace.new).types.length
            < ((lib.namespaces.getD i Namespace.new).types ++ [none]).length := by
          simp
        rw [List.getElem?_set_self hlt]
  | none =>
    have hnewget : Namespace.new.get_type tyName
        = (0, ⟨"", [none], [(tyName, 0)], [], []⟩) := rfl
    have hnewns : Library.namespace'
        ⟨lib.namespaces ++ [Namespace.new], lib.index ++ [(nsName, lib.namespaces.length)]⟩
        lib.namespaces.length = Namespace.new := by
      simp only [Library.namespace']
      exact getD_append_length lib.namespaces Namespace.new Namespace.new
    constructor
    · simp only [Library.get_type, Library.get_namespace, hsplit, hg, Option.isSome_some]
    intro t lib' heq
    simp only [Library.get_type, Library.get_namespace, hsplit, hg, hnewns, hnewget] at heq
    simp at heq
    obtain ⟨ht, hl⟩ := heq
    subst ht
    subst hl
    refine ⟨?_, ?_, ?_⟩
    · simp only [Library.type_by_id]
      rw [List.getElem?_concat_length]
      simp [Namespace.type_by_id]
    · simp only [Library.add_type, Library.namespace']
      rw [getD_append_length]
      simp only [Namespace.add_type, Namespace.get_type]
      simp [mapGet]
    · simp only [Library.add_type, Library.namespace']
      rw [getD_append_length]
      simp only [Namespace.add_type, Namespace.get_type]
      simp only [Library.type_by_id]
      have hlt : lib.namespaces.length
          < (lib.namespaces ++ [(⟨"", [none], [(tyName, 0)], [], []⟩ : Namespace)]).length := by
        simp
      rw [show (mapGet tyName [(tyName, 0)] : Option Nat) = some 0 by simp [mapGet]]
      rw [List.getElem?_set_self hlt]
      simp [Namespace.type_by_id]

/-- C2 witness: resolving `Foo.Widget` in the empty library yields an empty
slot which the later definition fills under the same TypeId. -/
theorem claim_C2_forward_reference_witness :
    ((Library.mk [] []).get_type 0 ("Foo.Widget")).isSome = true ∧
    ∀ t lib', (Library.mk [] []).get_type 0 ("Foo.Widget") = some (t, lib') →
      lib'.type_by_id t = none ∧
      (lib'.add_type t.ns_id ("Widget") (Typ.Record ⟨"Widget", []⟩)).1 = t ∧
      (lib'.add_type t.ns_id ("Widget") (Typ.Record ⟨"Widget", []⟩)).2.type_by_id t
        = some (Typ.Record ⟨"Widget", []⟩) :=
  claim_C2_forward_reference (Library.mk [] []) 0 ("Foo.Widget") ("Foo") ("Widget")
    (Typ.Record ⟨"Widget", []⟩) rfl
    (fun i h => by simp [mapGet] at h)
    (fun i h => by simp [mapGet] at h)

/-- C3 witness: a second resolution of `gint32` from namespace 0 of the fresh
library returns the same TypeId and the unchanged library. -/
theorem claim_C3_idempotent_interning_witness :
    Library.new.get_type 0 ("gint32") = some (⟨0, 6⟩, Library.new) :=
  claim_C3_idempotent_interning.2 Library.new 0 ("gint32") ⟨0, 6⟩ Library.new rfl

/-- C8: representation derivation is transitive through alias chains: for a
resolved chain A -> B -> C ending in a non-alias type C, deriving A's
representation (with the fuel consumed by the two alias hops) equals deriving
C's representation directly. -/
theorem claim_C8_alias_transitivity (lib : Library) (a b : Alias) (tC : Typ)
    (hab : lib.type_by_id a.typ = some (Typ.Alias b))
    (hbc : lib.type_by_id b.typ = some tC)
    (hC : ∀ x, tC ≠ Typ.Alias x) :
    ∀ fuel, Typ.as_arg (fuel + 2) lib (Typ.Alias a) = Typ.as_arg fuel lib tC := by
  intro fuel
  show Typ.as_arg (fuel + 1 + 1) lib (Typ.Alias a) = Typ.as_arg fuel lib tC
  rw [show fuel + 1 + 1 = (fuel + 1) + 1 from rfl]
  simp only [Typ.as_arg, hab, Option.some_bind, hbc]

/-- C8 witness: a two-alias chain over the fundamental `Int32` in a one-namespace
library, evaluated at fuel 1. -/
theorem claim_C8_alias_transitivity_witness :
    Typ.as_arg 3
      (Library.mk [Namespace.mk ("*")
        [some (Typ.Fundamental Fundamental.Int32),
         some (Typ.Alias ⟨"B", "B", ⟨0, 0⟩⟩)] [] [] []] [])
      (Typ.Alias ⟨"A", "A", ⟨0, 1⟩⟩)
      = Typ.as_arg 1
        (Library.mk [Namespace.mk ("*")
          [some (Typ.Fundamental Fundamental.Int32),
           some (Typ.Alias ⟨"B", "B", ⟨0, 0⟩⟩)] [] [] []] [])
        (Typ.Fundamental Fundamental.Int32) :=
  claim_C8_alias_transitivity
    (Library.mk [Namespace.mk ("*")
      [some (Typ.Fundamental Fundamental.Int32),
       some (Typ.Alias ⟨"B", "B", ⟨0, 0⟩⟩)] [] [] []] [])
    ⟨"A", "A", ⟨0, 1⟩⟩ ⟨"B", "B", ⟨0, 0⟩⟩ (Typ.Fundamental Fundamental.Int32)
    rfl rfl (fun _ h => Typ.noConfusion h) 1

/-- C9 witness: redefining `Widget` in the internal namespace of the fresh
library issues the old identifier and the TypeId resolves to the new type. -/
theorem claim_C9_redefinition_overwrites_witness :
    ((Library.new.add_type 0 ("Widget") (Typ.Record ⟨"Widget", []⟩)).2.add_type 0 ("Widget")
        (Typ.Record ⟨"Widget2", []⟩)).1 =
      (Library.new.add_type 0 ("Widget") (Typ.Record ⟨"Widget", []⟩)).1 ∧
    ((Library.new.add_type 0 ("Widget") (Typ.Record ⟨"Widget", []⟩)).2.add_type 0 ("Widget")
        (Typ.Record ⟨"Widget2", []⟩)).2.type_by_id
        (Library.new.add_type 0 ("Widget") (Typ.Record ⟨"Widget", []⟩)).1 =
      some (Typ.Record ⟨"Widget2", []⟩) :=
  claim_C9_redefinition_overwrites Library.new 0 ("Widget") (Typ.Record ⟨"Widget", []⟩)
    (Typ.Record ⟨"Widget2", []⟩) (by decide) (by decide)

end Gir
